import Mathlib

/-!
Verification of the access-filtered schema cache of `pkg/schema/factory.go`:
the cache-timeout configuration, the per-subject schema filtering algorithm
(`Collection.schemasForSubject`), the template merge pass
(`Collection.applyTemplates`), and the three coupled cache indexes used by
`Collection.Schemas`, `Collection.removeOldRecords`, `Collection.addToCache`
and `Collection.purgeUserRecords`.
-/

namespace Steve

/-! ### Association-list maps

Go maps and the keyed caches (`c.cache`, `c.userCache` and the
`c.userTimeoutCache` sync.Map) are modelled as association lists over string
keys with overwrite-on-insert semantics. -/

def alLookup {α : Type} : List (String × α) → String → Option α
  | [], _ => none
  | (k1, v) :: rest, k => if k1 = k then some v else alLookup rest k

def alRemove {α : Type} : List (String × α) → String → List (String × α)
  | [], _ => []
  | (k1, v) :: rest, k =>
    if k1 = k then alRemove rest k else (k1, v) :: alRemove rest k

def alInsert {α : Type} (l : List (String × α)) (k : String) (v : α) : List (String × α) :=
  (k, v) :: alRemove l k

def countKey {α : Type} : List (String × α) → String → Nat
  | [], _ => 0
  | (k1, _) :: rest, k => (if k1 = k then 1 else 0) + countKey rest k

/-! ### Cache-timeout configuration

Models the package-level `CacheTimeout` variable and the `init` function of
`factory.go`: the default is `3 * 30 * 24` (used as that many hours), and a
non-empty `CATTLE_CACHE_TIMEOUT` environment value is parsed with
`strconv.Atoi`; on a parse error the error is logged and the default kept,
otherwise the parsed integer (of either sign) becomes the timeout. -/

def defaultCacheTimeout : Int := 3 * 30 * 24

def parseDigits (cs : List Char) : Option Nat :=
  match cs with
  | [] => none
  | _ =>
    if cs.all Char.isDigit then
      some (cs.foldl (fun acc c => acc * 10 + (c.toNat - 48)) 0)
    else
      none

/-- Models `strconv.Atoi`: optional sign, decimal digits, 64-bit range check. -/
def atoi (s : String) : Option Int :=
  let signAndDigits : Bool × List Char :=
    match s.data with
    | '+' :: rest => (false, rest)
    | '-' :: rest => (true, rest)
    | cs => (false, cs)
  match parseDigits signAndDigits.2 with
  | none => none
  | some n =>
    let v : Int := if signAndDigits.1 then -(n : Int) else (n : Int)
    if v < -9223372036854775808 ∨ 9223372036854775807 < v then none else some v

/-- The value `CacheTimeout` holds after `init` ran with the given
`CATTLE_CACHE_TIMEOUT` environment value (`""` when the variable is absent). -/
def effectiveCacheTimeout (env : String) : Int :=
  if env = "" then defaultCacheTimeout
  else
    match atoi env with
    | none => defaultCacheTimeout
    | some n => n

/-- `init` logs a parse error exactly for a present but unparsable value. -/
def cacheTimeoutErrLogged (env : String) : Bool :=
  (env != "") && (atoi env).isNone

/-! ### The schema filtering algorithm (`Collection.schemasForSubject`)

`accesscontrol.Access` carries a namespace scope and a resource name;
`accesscontrol.All` is the cluster-wide scope marker. An
`accesscontrol.AccessSet` is modelled at its interface: the stable `ID`, the
`AccessListFor` query and the `Namespaces` enumeration. `types.APISchema`
together with the `attributes` helpers (`GR`, `Verbs`, `Namespaced`,
`DisallowMethods`, `SetAccess`) is flattened into one structure whose fields
hold what those attribute accessors read and write. Formatter and store
handles are opaque: formatters are identified by numbers (a chain of
formatters is the list of their identifiers in execution order), stores by
numbers, and customization hooks by numbers logged in `customized` when
invoked. -/

def All : String := "*"

structure Access where
  ns : String
  resourceName : String
deriving DecidableEq

abbrev AccessList := List Access

abbrev AccessListByVerb := List (String × AccessList)

structure AccessSet where
  id : String
  accessListFor : String → String × String → AccessList
  namespaces : List String

structure APISchema where
  id : String
  group : String
  kind : String
  resource : String
  namespaced : Bool
  verbs : List String
  disallowMethods : List String
  resourceMethods : List String
  collectionMethods : List String
  accessMap : AccessListByVerb := []
  formatter : Option (List Nat) := none
  store : Option Nat := none
  customized : List Nat := []
deriving DecidableEq

def methodGet : String := "GET"
def methodDelete : String := "DELETE"
def methodPut : String := "PUT"
def methodPatch : String := "PATCH"
def methodPost : String := "POST"

/-- Modelled from the spec: `accesscontrol.AccessListByVerb.AnyVerb` is not
under `src/`; per the spec's derivation table a verb counts exactly when it
has "any grant", i.e. a non-empty surviving grant list. -/
def anyVerb (va : AccessListByVerb) (verbs : List String) : Bool :=
  verbs.any (fun v => 0 < ((alLookup va v).getD []).length)

/-- The per-verb grant query plus the cluster-scope trimming step: for a
schema that is not namespace-scoped, grants whose scope is not the
cluster-wide marker are dropped. -/
def grantsForVerb (access : AccessSet) (s : APISchema) (verb : String) : AccessList :=
  let a := access.accessListFor verb (s.group, s.resource)
  if s.namespaced then a else a.filter (fun g => g.ns == All)

/-- One step of the loop over `attributes.Verbs(s)` building `verbAccess`. -/
def verbStep (access : AccessSet) (s : APISchema) (va : AccessListByVerb)
    (verb : String) : AccessListByVerb :=
  let a := grantsForVerb access s verb
  if 0 < a.length then va ++ [(verb, a)] else va

/-- The `verbAccess` map built by the loop over `attributes.Verbs(s)`:
a verb is recorded only when its surviving grant list is non-empty. -/
def buildVerbAccess (access : AccessSet) (s : APISchema) : AccessListByVerb :=
  s.verbs.foldl (verbStep access s) []

/-- The synthesized namespace grant list: one cluster-wide grant per visible
namespace, with the namespace name as the resource name. -/
def nsFallback (access : AccessSet) : AccessList :=
  access.namespaces.map (fun n => { ns := All, resourceName := n })

/-- Whether the namespace-listing special case fires: no verb has any
surviving grant and the schema is the core `namespaces` resource. -/
def specialCase (access : AccessSet) (s : APISchema) : Bool :=
  (buildVerbAccess access s).isEmpty && (s.group == "") && (s.resource == "namespaces")

/-- The base schema as it stands after one loop iteration, BEFORE
`s.DeepCopy()`: in the namespace special case with zero visible namespaces
the loop appends `http.MethodGet` to the collection methods of the shared
base schema itself. -/
def preSchema (access : AccessSet) (s : APISchema) : APISchema :=
  if specialCase access s && (nsFallback access).isEmpty then
    { s with collectionMethods := s.collectionMethods ++ [methodGet] }
  else s

/-- The verb access map actually attached to the copy: the built map, or the
synthesized `get`/`watch` entries in the namespace special case. -/
def effVerbAccess (access : AccessSet) (s : APISchema) : AccessListByVerb :=
  if specialCase access s then
    [("get", nsFallback access), ("watch", nsFallback access)]
  else buildVerbAccess access s

/-- The `allowed` closure: a method in the per-schema disallow list is tagged
`blocked-` rather than omitted. -/
def allowed (s : APISchema) (m : String) : String :=
  if s.disallowMethods.contains m then "blocked-" ++ m else m

/-- The deep copy with the access map attached and the derived resource-level
and collection-level methods appended, in source order. -/
def derivedSchema (access : AccessSet) (s : APISchema) : APISchema :=
  let s1 := preSchema access s
  let va := effVerbAccess access s
  let t0 := { s1 with accessMap := va }
  let t1 :=
    if anyVerb va ["list", "get"] then
      { t0 with
          resourceMethods := t0.resourceMethods ++ [allowed s1 methodGet],
          collectionMethods := t0.collectionMethods ++ [allowed s1 methodGet] }
    else t0
  let t2 :=
    if anyVerb va ["delete"] then
      { t1 with resourceMethods := t1.resourceMethods ++ [allowed s1 methodDelete] }
    else t1
  let t3 :=
    if anyVerb va ["update"] then
      { t2 with
          resourceMethods := t2.resourceMethods ++ [allowed s1 methodPut, allowed s1 methodPatch] }
    else t2
  let t4 :=
    if anyVerb va ["create"] then
      { t3 with collectionMethods := t3.collectionMethods ++ [allowed s1 methodPost] }
    else t3
  t4

/-- One iteration of the loop body of `schemasForSubject`: returns the base
schema as left behind by the iteration (Go mutates the shared `*s` in place
in the empty-namespace special case) and the entry added to the result, if
any. A virtual schema (empty resource) passes through unfiltered; a schema
whose derived method sets are both empty is dropped. -/
def processSchema (access : AccessSet) (s : APISchema) : APISchema × Option APISchema :=
  if s.resource = "" then (s, some s)
  else
    let t := derivedSchema access s
    (preSchema access s,
      if t.collectionMethods.isEmpty && t.resourceMethods.isEmpty then none else some t)

/-- The loop of `schemasForSubject` over `c.schemas`: returns the base
catalog as it stands after the call together with the filtered result
entries. -/
def schemasForSubject (access : AccessSet) : List APISchema → List APISchema × List APISchema
  | [] => ([], [])
  | s :: rest =>
    let p := processSchema access s
    let q := schemasForSubject access rest
    (p.1 :: q.1,
      match p.2 with
      | none => q.2
      | some t => t :: q.2)

/-- Modelled from the spec: the tagged-blocked form of a derived operation
("a blocked operation is still recorded as present but tagged blocked"). -/
def tagBlocked (disallow : List String) (m : String) : String :=
  if disallow.contains m then "blocked-" ++ m else m

/-- Modelled from the spec: the resource-level operations of the derivation
table (list or get grant gives GET; delete gives DELETE; update gives PUT and
PATCH), each screened against the explicit block-list. -/
def specResourceOps (va : AccessListByVerb) (disallow : List String) : List String :=
  (if anyVerb va ["list", "get"] then [tagBlocked disallow methodGet] else []) ++
  (if anyVerb va ["delete"] then [tagBlocked disallow methodDelete] else []) ++
  (if anyVerb va ["update"] then
    [tagBlocked disallow methodPut, tagBlocked disallow methodPatch] else [])

/-- Modelled from the spec: the collection-level operations of the derivation
table (list or get grant gives GET; create gives POST), each screened against
the explicit block-list. -/
def specCollectionOps (va : AccessListByVerb) (disallow : List String) : List String :=
  (if anyVerb va ["list", "get"] then [tagBlocked disallow methodGet] else []) ++
  (if anyVerb va ["create"] then [tagBlocked disallow methodPost] else [])

/-- Every grant recorded in a verb access map is cluster-wide. -/
def clusterScopedOnly (va : AccessListByVerb) : Bool :=
  va.all (fun e => e.2.all (fun g => g.ns == All))

/-! ### The template merge pass (`Collection.applyTemplates`) -/

structure Template where
  formatter : Option Nat := none
  store : Option Nat := none
  storeFactory : Option (Option Nat → Option Nat) := none
  customize : Option Nat := none

/-- `Collection.defaultStore`: the store of the first wildcard template. -/
def defaultStore (templates : String → List Template) : Option Nat :=
  match templates "" with
  | [] => none
  | t :: _ => t.store

/-- The body of the template loop for a single template `t`: assign or chain
the formatter (the template's formatter runs before the formatter already
set), assign the store only when none is set yet (directly, or through the
store factory applied to the process-wide default store), and invoke the
customization hook unconditionally (its invocation is logged in
`customized`). -/
def applyOneTemplate (dflt : Option Nat) (schema : APISchema) (t : Template) : APISchema :=
  let s1 :=
    match schema.formatter, t.formatter with
    | none, tf => { schema with formatter := tf.map (fun f => [f]) }
    | some l, none => { schema with formatter := some l }
    | some l, some f => { schema with formatter := some (f :: l) }
  let s2 :=
    if s1.store.isNone then
      match t.storeFactory with
      | none => { s1 with store := t.store }
      | some fac => { s1 with store := fac dflt }
    else s1
  match t.customize with
  | none => s2
  | some h => { s2 with customized := s2.customized ++ [h] }

/-- `Collection.applyTemplates`: exact-identity templates first, then
group/kind templates, then wildcard templates. -/
def applyTemplates (templates : String → List Template) (schema : APISchema) : APISchema :=
  let dflt := defaultStore templates
  (templates schema.id ++
   templates (schema.group ++ "/" ++ schema.kind) ++
   templates "").foldl (applyOneTemplate dflt) schema

/-! ### The cache (`Collection.Schemas` and its helpers)

The three coupled indexes: `c.cache` (decision ID to cached catalog, with a
TTL), `c.userCache` (user name to decision ID, with a TTL) and
`c.userTimeoutCache` (decision ID to absolute expiry time and user name).
Catalog values are opaque numbers; `compute` stands for the call to
`schemasForSubject`; `purged` logs the `as.PurgeUserData` notifications; time
is an explicit clock, and an entry is live while the clock is below its
deadline. -/

structure CacheEntry (α : Type) where
  value : α
  deadline : Nat
deriving DecidableEq

structure UserTimeoutCacheValue where
  timeout : Nat
  userName : String
deriving DecidableEq

structure CState where
  cache : List (String × CacheEntry Nat)
  userCache : List (String × CacheEntry String)
  userTimeoutCache : List (String × UserTimeoutCacheValue)
  purged : List String
  now : Nat
deriving DecidableEq

def initialState : CState :=
  { cache := [], userCache := [], userTimeoutCache := [], purged := [], now := 0 }

def cacheGet (st : CState) (k : String) : Option Nat :=
  match alLookup st.cache k with
  | none => none
  | some e => if st.now < e.deadline then some e.value else none

def userCacheGet (st : CState) (u : String) : Option String :=
  match alLookup st.userCache u with
  | none => none
  | some e => if st.now < e.deadline then some e.value else none

/-- `Collection.purgeUserRecords`: remove a decision record from the primary
cache and the expiry index, and notify the access-control store. -/
def purgeUserRecords (id : String) (st : CState) : CState :=
  { st with
      cache := alRemove st.cache id,
      userTimeoutCache := alRemove st.userTimeoutCache id,
      purged := st.purged ++ [id] }

/-- `Collection.removeOldRecords`: if the user has a cached decision identity
different from the current one, purge that record and drop the user's
principal-index entry. -/
def removeOldRecords (userName accessID : String) (st : CState) : CState :=
  match userCacheGet st userName with
  | none => st
  | some currentId =>
    if currentId ≠ accessID then
      let st1 := purgeUserRecords currentId st
      { st1 with userCache := alRemove st1.userCache userName }
    else st

/-- `Collection.addToCache`: store the catalog under the decision identity in
all three indexes, with the same time-to-live. -/
def addToCache (ttl : Nat) (userName accessID : String) (schemas : Nat) (st : CState) : CState :=
  { st with
      cache := alInsert st.cache accessID ⟨schemas, st.now + ttl⟩,
      userCache := alInsert st.userCache userName ⟨accessID, st.now + ttl⟩,
      userTimeoutCache := alInsert st.userTimeoutCache accessID ⟨st.now + ttl, userName⟩ }

/-- `Collection.Schemas`: purge stale per-user state, then serve a cache hit,
or compute the catalog (propagating a computation error without caching) and
store it. -/
def Schemas (ttl : Nat) (compute : String → Except String Nat) (userName accessID : String)
    (st : CState) : Except String Nat × CState :=
  let st1 := removeOldRecords userName accessID st
  match cacheGet st1 accessID with
  | some v => (Except.ok v, st1)
  | none =>
    match compute accessID with
    | Except.error e => (Except.error e, st1)
    | Except.ok schemas => (Except.ok schemas, addToCache ttl userName accessID schemas st1)

/-- States reachable through the cache's operations: the empty start state,
a `Schemas` call, and the passage of time (TTL expiry is lazy: entries whose
deadline has passed stop being served). -/
inductive Reach (ttl : Nat) : CState → Prop where
  | start : Reach ttl initialState
  | step (compute : String → Except String Nat) (userName accessID : String) (st : CState) :
      Reach ttl st → Reach ttl (Schemas ttl compute userName accessID st).2
  | tick (st : CState) (d : Nat) : Reach ttl st → Reach ttl { st with now := st.now + d }

/-- The primary index projected to (key, expiry deadline). -/
def cacheDeadlines (st : CState) : List (String × Nat) :=
  st.cache.map (fun e => (e.1, e.2.deadline))

/-- The expiry index projected to (key, expiry deadline). -/
def utcDeadlines (st : CState) : List (String × Nat) :=
  st.userTimeoutCache.map (fun e => (e.1, e.2.timeout))

/-! ### Concrete inputs used by counterexamples and witnesses -/

def nsSchema : APISchema :=
  { id := "namespaces", group := "", kind := "Namespace", resource := "namespaces",
    namespaced := false, verbs := ["get", "watch", "list"],
    disallowMethods := [], resourceMethods := [], collectionMethods := [] }

def noGrantsAccess : AccessSet :=
  { id := "a-empty", accessListFor := fun _ _ => [], namespaces := [] }

def twoNsAccess : AccessSet :=
  { id := "a-two-ns", accessListFor := fun _ _ => [], namespaces := ["ns1", "ns2"] }

def clusterRolesSchema : APISchema :=
  { id := "clusterroles", group := "rbac", kind := "ClusterRole", resource := "clusterroles",
    namespaced := false, verbs := ["get", "list"],
    disallowMethods := [], resourceMethods := [], collectionMethods := [] }

def mixedScopeAccess : AccessSet :=
  { id := "a-mixed",
    accessListFor := fun v gr =>
      if v = "get" ∧ gr = ("rbac", "clusterroles") then
        [{ ns := "team-a", resourceName := "" }, { ns := All, resourceName := "" }]
      else [],
    namespaces := [] }

def blockedPodsSchema : APISchema :=
  { id := "pods", group := "", kind := "Pod", resource := "pods",
    namespaced := true, verbs := ["list", "create", "delete", "update"],
    disallowMethods := ["GET", "POST"], resourceMethods := [], collectionMethods := [] }

def listCreateAccess : AccessSet :=
  { id := "a-list-create",
    accessListFor := fun v _ =>
      if v = "list" ∨ v = "create" then [{ ns := "ns1", resourceName := "" }] else [],
    namespaces := [] }

def c1State : CState :=
  { cache := [("D1", ⟨1, 100⟩), ("D2", ⟨2, 100⟩)],
    userCache := [("P", ⟨"D1", 100⟩), ("Q", ⟨"D2", 100⟩)],
    userTimeoutCache := [("D1", ⟨100, "P"⟩), ("D2", ⟨100, "Q"⟩)],
    purged := [], now := 0 }

def c1MissState : CState :=
  { cache := [("D1", ⟨1, 100⟩)],
    userCache := [("P", ⟨"D1", 100⟩)],
    userTimeoutCache := [("D1", ⟨100, "P"⟩)],
    purged := [], now := 0 }

def c8WitnessState : CState :=
  (Schemas 2160 (fun _ => Except.ok 5) "P" "D" initialState).2

/-! ### Association-list lemmas -/

theorem alLookup_alRemove {α : Type} (l : List (String × α)) (k k' : String) :
    alLookup (alRemove l k) k' = if k' = k then none else alLookup l k' := by
  induction l with
  | nil => simp [alRemove, alLookup]
  | cons e rest ih =>
    obtain ⟨k1, v⟩ := e
    rw [alRemove]
    by_cases h1 : k1 = k
    · rw [if_pos h1, ih]
      by_cases h3 : k' = k
      · simp [h3]
      · have h2 : ¬ (k1 = k') := fun hk => h3 (by rw [← hk, h1])
        simp [alLookup, h3, h2]
    · rw [if_neg h1, alLookup]
      by_cases h2 : k1 = k'
      · have h3 : ¬ (k' = k) := fun hk => h1 (by rw [h2, hk])
        simp [alLookup, h2, h3]
      · rw [if_neg h2, ih]
        simp [alLookup, h2]

theorem alLookup_alInsert {α : Type} (l : List (String × α)) (k k' : String) (v : α) :
    alLookup (alInsert l k v) k' = if k = k' then some v else alLookup l k' := by
  by_cases h : k = k'
  · subst h; simp [alInsert, alLookup]
  · simp [alInsert, alLookup, h, alLookup_alRemove, Ne.symm h]

theorem countKey_alRemove_self {α : Type} (l : List (String × α)) (k : String) :
    countKey (alRemove l k) k = 0 := by
  induction l with
  | nil => rfl
  | cons e rest ih =>
    obtain ⟨k1, v⟩ := e
    by_cases h : k1 = k
    · simpa [alRemove, countKey, h] using ih
    · simpa [alRemove, countKey, h] using ih

theorem countKey_alRemove_other {α : Type} (l : List (String × α)) (k k' : String)
    (h : k' ≠ k) : countKey (alRemove l k) k' = countKey l k' := by
  induction l with
  | nil => rfl
  | cons e rest ih =>
    obtain ⟨k1, v⟩ := e
    have hkk : ¬ (k = k') := fun hk => h hk.symm
    by_cases h1 : k1 = k
    · have h2 : ¬ (k1 = k') := by
        rw [h1]; exact hkk
      simpa [alRemove, countKey, h1, h2, hkk] using ih
    · by_cases h2 : k1 = k'
      · simpa [alRemove, countKey, h1, h2, h, hkk] using ih
      · simpa [alRemove, countKey, h1, h2, hkk] using ih

theorem countKey_alInsert_self {α : Type} (l : List (String × α)) (k : String) (v : α) :
    countKey (alInsert l k v) k = 1 := by
  simpa [alInsert, countKey] using countKey_alRemove_self l k

theorem countKey_alInsert_other {α : Type} (l : List (String × α)) (k k' : String) (v : α)
    (h : k' ≠ k) : countKey (alInsert l k v) k' = countKey l k' := by
  have hne : ¬ (k = k') := fun hk => h hk.symm
  simpa [alInsert, countKey, hne] using countKey_alRemove_other l k k' h

theorem alRemove_sublist {α : Type} (l : List (String × α)) (k : String) :
    List.Sublist (alRemove l k) l := by
  induction l with
  | nil => simp [alRemove]
  | cons e rest ih =>
    obtain ⟨k1, v⟩ := e
    by_cases h : k1 = k
    · rw [alRemove, if_pos h]
      exact ih.cons (k1, v)
    · rw [alRemove, if_neg h]
      exact ih.cons₂ (k1, v)

/-! ### Claim C9: the cache-timeout configuration -/

/-- Claim C9 counterexample: with the override `"-1"` the effective timeout
is the negative number `-1` of hours, which is neither a non-negative number
of hours nor the 2160-hour default, refuting the claim that every override
yields a non-negative TTL or the default. -/
theorem c9_counterexample :
    effectiveCacheTimeout "-1" = -1 ∧
    ¬ (0 ≤ effectiveCacheTimeout "-1") ∧
    effectiveCacheTimeout "-1" ≠ defaultCacheTimeout := by
  decide

/-- Claim C9 (amended): the TTL is controlled by the single
`CATTLE_CACHE_TIMEOUT` integer parameter interpreted as hours; an absent or
unparsable value falls back to the built-in default of 2160 hours (a parse
error being logged exactly for a present but unparsable value), and every
value yields a total result: the effective TTL is either the parsed integer
number of hours — negative values included, they are not rejected — or the
2160-hour default. -/
theorem c9_ttl_total (env : String) :
    (effectiveCacheTimeout env = defaultCacheTimeout ∧ defaultCacheTimeout = 2160 ∧
        (env = "" ∨ atoi env = none)) ∨
      atoi env = some (effectiveCacheTimeout env) := by
  by_cases h : env = ""
  · left
    refine ⟨by simp [effectiveCacheTimeout, h], by decide, Or.inl h⟩
  · cases ha : atoi env with
    | none =>
      left
      refine ⟨by simp [effectiveCacheTimeout, h, ha], by decide, Or.inr rfl⟩
    | some n =>
      right
      simp [effectiveCacheTimeout, h, ha]

/-! ### Claims C2 and C3: the shared base catalog is mutated -/

/-- Claim C2 failing input: for the core namespaces schema with no grants and
zero visible namespaces, `schemasForSubject` appends collection-level GET to
the shared base schema before `DeepCopy`, so the base catalog is mutated by
the call. -/
theorem c2_base_catalog_mutated :
    (schemasForSubject noGrantsAccess [nsSchema]).1 ≠ [nsSchema] ∧
    (schemasForSubject noGrantsAccess [nsSchema]).1 =
      [{ nsSchema with collectionMethods := [methodGet] }] := by
  decide

/-- Claim C3 failing input: because the first call mutates the shared base
schema, a second `schemasForSubject` call on the same collection returns a
namespaces schema with a second collection-level GET appended — repeated
invocation changes the output. -/
theorem c3_repeated_call_differs :
    (schemasForSubject noGrantsAccess [nsSchema]).2 ≠
      (schemasForSubject noGrantsAccess
        (schemasForSubject noGrantsAccess [nsSchema]).1).2 ∧
    ((schemasForSubject noGrantsAccess [nsSchema]).2.map
        (fun s => s.collectionMethods)) = [[methodGet]] ∧
    ((schemasForSubject noGrantsAccess
        (schemasForSubject noGrantsAccess [nsSchema]).1).2.map
        (fun s => s.collectionMethods)) = [[methodGet, methodGet]] := by
  decide

/-! ### Filtering lemmas -/

theorem derivedSchema_accessMap (access : AccessSet) (s : APISchema) :
    (derivedSchema access s).accessMap = effVerbAccess access s := by
  unfold derivedSchema
  dsimp only
  split_ifs <;> rfl

theorem preSchema_disallow (access : AccessSet) (s : APISchema) :
    (preSchema access s).disallowMethods = s.disallowMethods := by
  unfold preSchema
  split_ifs <;> rfl

theorem processSchema_some (access : AccessSet) (s : APISchema) (t : APISchema)
    (hres : s.resource ≠ "") (hsome : (processSchema access s).2 = some t) :
    t = derivedSchema access s := by
  simp only [processSchema, if_neg hres] at hsome
  split at hsome
  · exact absurd hsome (by simp)
  · exact (Option.some.inj hsome).symm

theorem verbStep_foldl_mem (access : AccessSet) (s : APISchema) :
    ∀ (vs : List String) (acc : AccessListByVerb) (p : String × AccessList),
      p ∈ vs.foldl (verbStep access s) acc →
      p ∈ acc ∨ p.2 = grantsForVerb access s p.1 := by
  intro vs
  induction vs with
  | nil => intro acc p hp; exact Or.inl hp
  | cons v rest ih =>
    intro acc p hp
    rw [List.foldl_cons] at hp
    rcases ih (verbStep access s acc v) p hp with h | h
    · simp only [verbStep] at h
      by_cases hl : 0 < (grantsForVerb access s v).length
      · rw [if_pos hl] at h
        rcases List.mem_append.mp h with h2 | h2
        · exact Or.inl h2
        · right
          have hpe : p = (v, grantsForVerb access s v) := by simpa using h2
          rw [hpe]
      · rw [if_neg hl] at h
        exact Or.inl h
    · exact Or.inr h

theorem buildVerbAccess_mem (access : AccessSet) (s : APISchema) (p : String × AccessList)
    (hp : p ∈ buildVerbAccess access s) : p.2 = grantsForVerb access s p.1 := by
  rcases verbStep_foldl_mem access s s.verbs [] p hp with h | h
  · exact absurd h (List.not_mem_nil p)
  · exact h

theorem grantsForVerb_cluster (access : AccessSet) (s : APISchema) (verb : String)
    (h : s.namespaced = false) :
    ∀ g ∈ grantsForVerb access s verb, g.ns = All := by
  intro g hg
  simp only [grantsForVerb, h] at hg
  simp only [Bool.false_eq_true, if_false, List.mem_filter] at hg
  exact eq_of_beq hg.2

theorem nsFallback_cluster (access : AccessSet) :
    ∀ g ∈ nsFallback access, g.ns = All := by
  intro g hg
  simp only [nsFallback, List.mem_map] at hg
  obtain ⟨n, _, hn⟩ := hg
  rw [← hn]

/-! ### Claim C4: cluster-scope grant trimming -/

/-- Claim C4: for a resource schema that is not namespace-scoped, every grant
recorded in the access map attached to the filtered result is cluster-wide;
namespace-scoped grants on cluster-scoped resources are discarded. -/
theorem c4_cluster_scope_trimming (access : AccessSet) (s : APISchema) (t : APISchema)
    (hres : s.resource ≠ "") (hns : s.namespaced = false)
    (hsome : (processSchema access s).2 = some t) :
    clusterScopedOnly t.accessMap = true := by
  rw [processSchema_some access s t hres hsome, derivedSchema_accessMap]
  rw [clusterScopedOnly, List.all_eq_true]
  intro e he
  rw [List.all_eq_true]
  intro g hg
  have hga : g.ns = All := by
    unfold effVerbAccess at he
    by_cases hsp : specialCase access s = true
    · rw [if_pos hsp] at he
      have he2 : e.2 = nsFallback access := by
        rcases List.mem_cons.mp he with h | h
        · rw [h]
        · rcases List.mem_cons.mp h with h2 | h2
          · rw [h2]
          · exact absurd h2 (List.not_mem_nil e)
      rw [he2] at hg
      exact nsFallback_cluster access g hg
    · rw [if_neg hsp] at he
      have he2 := buildVerbAccess_mem access s e he
      rw [he2] at hg
      exact grantsForVerb_cluster access s e.1 hns g hg
  simp [hga]

/-- Claim C4 witness: a decision set answering a namespaced grant plus a
cluster-wide grant for `get` on the cluster-scoped `clusterroles` schema
passes the theorem's hypotheses, and the namespaced grant is trimmed. -/
theorem c4_witness :
    clusterScopedOnly ((processSchema mixedScopeAccess clusterRolesSchema).2.getD
      clusterRolesSchema).accessMap = true :=
  c4_cluster_scope_trimming mixedScopeAccess clusterRolesSchema
    ((processSchema mixedScopeAccess clusterRolesSchema).2.getD clusterRolesSchema)
    (by decide) (by decide) (by rfl)

theorem derivedSchema_methods (access : AccessSet) (s : APISchema) :
    (derivedSchema access s).resourceMethods =
      (preSchema access s).resourceMethods ++
        specResourceOps (effVerbAccess access s) s.disallowMethods ∧
    (derivedSchema access s).collectionMethods =
      (preSchema access s).collectionMethods ++
        specCollectionOps (effVerbAccess access s) s.disallowMethods := by
  have hd := preSchema_disallow access s
  unfold derivedSchema specResourceOps specCollectionOps
  dsimp only
  by_cases h1 : anyVerb (effVerbAccess access s) ["list", "get"] = true <;>
  by_cases h2 : anyVerb (effVerbAccess access s) ["delete"] = true <;>
  by_cases h3 : anyVerb (effVerbAccess access s) ["update"] = true <;>
  by_cases h4 : anyVerb (effVerbAccess access s) ["create"] = true <;>
    simp [h1, h2, h3, h4, allowed, tagBlocked, hd, List.append_assoc]

/-! ### Claim C6: operation derivation and blocked-operation tagging -/

/-- Claim C6: the methods of every filtered schema are its methods before
derivation plus exactly the spec's derivation table applied to the attached
verb access map, with each derived operation screened against the explicit
block-list and recorded in tagged-blocked form when blocked. -/
theorem c6_operation_derivation (access : AccessSet) (s : APISchema) (t : APISchema)
    (hres : s.resource ≠ "") (hsome : (processSchema access s).2 = some t) :
    t.resourceMethods =
      (preSchema access s).resourceMethods ++
        specResourceOps (effVerbAccess access s) s.disallowMethods ∧
    t.collectionMethods =
      (preSchema access s).collectionMethods ++
        specCollectionOps (effVerbAccess access s) s.disallowMethods := by
  rw [processSchema_some access s t hres hsome]
  exact derivedSchema_methods access s

/-- Claim C6 witness: a `list` and `create` grant on a schema whose
block-list holds GET and POST yields the tagged-blocked forms in both derived
method lists. -/
theorem c6_witness :
    ((processSchema listCreateAccess blockedPodsSchema).2.getD blockedPodsSchema).resourceMethods =
      (preSchema listCreateAccess blockedPodsSchema).resourceMethods ++
        specResourceOps (effVerbAccess listCreateAccess blockedPodsSchema)
          blockedPodsSchema.disallowMethods ∧
    ((processSchema listCreateAccess blockedPodsSchema).2.getD blockedPodsSchema).collectionMethods =
      (preSchema listCreateAccess blockedPodsSchema).collectionMethods ++
        specCollectionOps (effVerbAccess listCreateAccess blockedPodsSchema)
          blockedPodsSchema.disallowMethods :=
  c6_operation_derivation listCreateAccess blockedPodsSchema
    ((processSchema listCreateAccess blockedPodsSchema).2.getD blockedPodsSchema)
    (by decide) (by rfl)

/-! ### Claim C5: the namespace-listing fallback -/

/-- Claim C5: for the core namespaces resource with no surviving verb
grants, the filtered schema's access map holds `get` and `watch` grant lists
with one cluster-wide grant per visible namespace carrying the namespace
name as resource name; with zero visible namespaces the filtered schema
still lists collection-level GET. -/
theorem c5_namespace_fallback (access : AccessSet) (s : APISchema)
    (hg : s.group = "") (hr : s.resource = "namespaces")
    (hva : buildVerbAccess access s = []) :
    ((processSchema access s).2.bind (fun t => alLookup t.accessMap "get")) =
        some (access.namespaces.map (fun n => { ns := All, resourceName := n })) ∧
    ((processSchema access s).2.bind (fun t => alLookup t.accessMap "watch")) =
        some (access.namespaces.map (fun n => { ns := All, resourceName := n })) ∧
    (access.namespaces = [] →
      ((processSchema access s).2.map (fun t => t.collectionMethods.contains methodGet)) =
        some true) := by
  have hres : ¬ (s.resource = "") := by simp [hr]
  have hsp : specialCase access s = true := by simp [specialCase, hva, hg, hr]
  have heff : effVerbAccess access s = [("get", nsFallback access), ("watch", nsFallback access)] := by
    simp [effVerbAccess, hsp]
  have hacc : (derivedSchema access s).accessMap =
      [("get", nsFallback access), ("watch", nsFallback access)] := by
    rw [derivedSchema_accessMap, heff]
  have hCM := (derivedSchema_methods access s).2
  by_cases hempty : access.namespaces = []
  · have hnsf : nsFallback access = [] := by simp [nsFallback, hempty]
    have hpre : preSchema access s =
        { s with collectionMethods := s.collectionMethods ++ [methodGet] } := by
      simp [preSchema, hsp, hnsf]
    have hops : specCollectionOps (effVerbAccess access s) s.disallowMethods = [] := by
      rw [heff, hnsf]
      simp [specCollectionOps, anyVerb, alLookup]
    have hcm2 : (derivedSchema access s).collectionMethods =
        s.collectionMethods ++ [methodGet] := by
      rw [hCM, hops, hpre]
      simp
    have hne : (derivedSchema access s).collectionMethods.isEmpty = false := by
      rw [hcm2]
      simp
    have hsome : (processSchema access s).2 = some (derivedSchema access s) := by
      simp only [processSchema, if_neg hres, hne, Bool.false_and, Bool.false_eq_true,
        if_false]
    rw [hsome]
    refine ⟨?_, ?_, ?_⟩
    · simp [hacc, alLookup, hnsf, nsFallback, hempty]
    · simp [hacc, alLookup, hnsf, nsFallback, hempty]
    · intro _
      simp [hcm2, methodGet]
  · have hlen : 0 < (nsFallback access).length := by
      simp [nsFallback, List.length_pos, hempty]
    have hv1 : anyVerb (effVerbAccess access s) ["list", "get"] = true := by
      rw [heff]
      simp [anyVerb, alLookup, hlen]
    have hcm2 : (derivedSchema access s).collectionMethods =
        (preSchema access s).collectionMethods ++
          specCollectionOps (effVerbAccess access s) s.disallowMethods := hCM
    have hops : specCollectionOps (effVerbAccess access s) s.disallowMethods =
        tagBlocked s.disallowMethods methodGet ::
          (if anyVerb (effVerbAccess access s) ["create"] = true then
            [tagBlocked s.disallowMethods methodPost] else []) := by
      simp [specCollectionOps, hv1]
    have hne : (derivedSchema access s).collectionMethods.isEmpty = false := by
      rw [hcm2, hops]
      simp
    have hsome : (processSchema access s).2 = some (derivedSchema access s) := by
      simp only [processSchema, if_neg hres, hne, Bool.false_and, Bool.false_eq_true,
        if_false]
    rw [hsome]
    refine ⟨?_, ?_, ?_⟩
    · simp [hacc, alLookup, nsFallback]
    · simp [hacc, alLookup, nsFallback]
    · intro h
      exact absurd h hempty

/-- Claim C5 witness: a decision set with zero grants and visible namespaces
`ns1`, `ns2` yields `get` and `watch` entries with the two cluster-wide
namespace-named grants. -/
theorem c5_witness :
    ((processSchema twoNsAccess nsSchema).2.bind (fun t => alLookup t.accessMap "get")) =
        some (twoNsAccess.namespaces.map (fun n => { ns := All, resourceName := n })) ∧
    ((processSchema twoNsAccess nsSchema).2.bind (fun t => alLookup t.accessMap "watch")) =
        some (twoNsAccess.namespaces.map (fun n => { ns := All, resourceName := n })) ∧
    (twoNsAccess.namespaces = [] →
      ((processSchema twoNsAccess nsSchema).2.map
          (fun t => t.collectionMethods.contains methodGet)) = some true) :=
  c5_namespace_fallback twoNsAccess nsSchema (by rfl) (by rfl) (by rfl)

/-! ### Claim C7: template precedence -/

/-- Claim C7: templates are visited exact-identity first, then group/kind,
then wildcard. First part: an exact template carrying only a customization
hook combined with a wildcard template carrying formatter and store yields
the wildcard's formatter and store, with both hooks invoked in precedence
order (exact hook first). Second part: a store factory on the
most-specific template is applied to the wildcard template's store (the
process-wide default), and once a store is assigned no later template
overwrites it. -/
theorem c7_template_precedence :
    (∀ (tmpls : String → List Template) (schema : APISchema) (hk hw f stw : Nat),
      schema.formatter = none → schema.store = none → schema.customized = [] →
      tmpls schema.id = [{ customize := some hk }] →
      tmpls (schema.group ++ "/" ++ schema.kind) = [] →
      tmpls "" = [{ formatter := some f, store := some stw, customize := some hw }] →
      (applyTemplates tmpls schema).formatter = some [f] ∧
      (applyTemplates tmpls schema).store = some stw ∧
      (applyTemplates tmpls schema).customized = [hk, hw]) ∧
    (∀ (tmpls : String → List Template) (schema : APISchema)
        (fac : Option Nat → Option Nat) (f stw std : Nat),
      schema.formatter = none → schema.store = none →
      tmpls schema.id = [{ storeFactory := some fac }] →
      tmpls (schema.group ++ "/" ++ schema.kind) = [] →
      tmpls "" = [{ formatter := some f, store := some stw }] →
      fac (some stw) = some std →
      (applyTemplates tmpls schema).store = some std ∧
      (applyTemplates tmpls schema).formatter = some [f]) := by
  constructor
  · intro tmpls schema hk hw f stw hf hs hc hexact hgk hwild
    simp [applyTemplates, hexact, hgk, hwild, applyOneTemplate, defaultStore, hf, hs, hc]
  · intro tmpls schema fac f stw std hf hs hexact hgk hwild hfac
    simp [applyTemplates, hexact, hgk, hwild, applyOneTemplate, defaultStore, hf, hs, hfac]

def c7Schema : APISchema :=
  { id := "sch1", group := "g", kind := "K", resource := "r", namespaced := true,
    verbs := [], disallowMethods := [], resourceMethods := [], collectionMethods := [] }

def c7Tmpls : String → List Template := fun k =>
  if k = "sch1" then [{ customize := some 7 }]
  else if k = "" then [{ formatter := some 1, store := some 2, customize := some 8 }]
  else []

def c7TmplsB : String → List Template := fun k =>
  if k = "sch1" then [{ storeFactory := some (fun d => d.map (fun x => x + 10)) }]
  else if k = "" then [{ formatter := some 1, store := some 2 }]
  else []

/-- Claim C7 witness: both template-precedence scenarios instantiated on a
concrete schema and template registry. -/
theorem c7_witness :
    ((applyTemplates c7Tmpls c7Schema).formatter = some [1] ∧
     (applyTemplates c7Tmpls c7Schema).store = some 2 ∧
     (applyTemplates c7Tmpls c7Schema).customized = [7, 8]) ∧
    ((applyTemplates c7TmplsB c7Schema).store = some 12 ∧
     (applyTemplates c7TmplsB c7Schema).formatter = some [1]) :=
  ⟨c7_template_precedence.1 c7Tmpls c7Schema 7 8 1 2 rfl rfl rfl rfl rfl rfl,
   c7_template_precedence.2 c7TmplsB c7Schema (fun d => d.map (fun x => x + 10)) 1 2 12
     rfl rfl rfl rfl rfl rfl⟩

/-! ### Cache lemmas -/

theorem removeOldRecords_purges (u D1 a : String) (st : CState)
    (h1 : userCacheGet st u = some D1) (h2 : D1 ≠ a) :
    removeOldRecords u a st =
      { st with
          cache := alRemove st.cache D1,
          userCache := alRemove st.userCache u,
          userTimeoutCache := alRemove st.userTimeoutCache D1,
          purged := st.purged ++ [D1] } := by
  simp only [removeOldRecords, h1]
  rw [if_pos h2]
  rfl

theorem cacheGet_removeOldRecords (u D1 a : String) (st : CState)
    (h1 : userCacheGet st u = some D1) (h2 : D1 ≠ a) :
    cacheGet (removeOldRecords u a st) a = cacheGet st a := by
  rw [removeOldRecords_purges u D1 a st h1 h2]
  simp [cacheGet, alLookup_alRemove, Ne.symm h2]

theorem removeOldRecords_sublists (u a : String) (st : CState) :
    List.Sublist (removeOldRecords u a st).cache st.cache ∧
    List.Sublist (removeOldRecords u a st).userCache st.userCache ∧
    List.Sublist (removeOldRecords u a st).userTimeoutCache st.userTimeoutCache := by
  cases h : userCacheGet st u with
  | none =>
    simp only [removeOldRecords, h]
    exact ⟨List.Sublist.refl _, List.Sublist.refl _, List.Sublist.refl _⟩
  | some c =>
    simp only [removeOldRecords, h]
    by_cases hc : c ≠ a
    · rw [if_pos hc]
      dsimp only [purgeUserRecords]
      exact ⟨alRemove_sublist _ _, alRemove_sublist _ _, alRemove_sublist _ _⟩
    · rw [if_neg hc]
      exact ⟨List.Sublist.refl _, List.Sublist.refl _, List.Sublist.refl _⟩

theorem map_proj_alRemove {α : Type} (g : α → Nat) (l : List (String × α)) (k : String) :
    (alRemove l k).map (fun e => (e.1, g e.2)) =
      alRemove (l.map (fun e => (e.1, g e.2))) k := by
  induction l with
  | nil => rfl
  | cons x rest ih =>
    obtain ⟨k1, v⟩ := x
    by_cases h : k1 = k
    · simp [alRemove, h, ih]
    · simp [alRemove, h, ih]

theorem lockstep_removeOldRecords (u a : String) (st : CState)
    (h : cacheDeadlines st = utcDeadlines st) :
    cacheDeadlines (removeOldRecords u a st) = utcDeadlines (removeOldRecords u a st) := by
  cases huc : userCacheGet st u with
  | none => simpa [removeOldRecords, huc] using h
  | some c =>
    by_cases hc : c ≠ a
    · simp only [removeOldRecords, huc]
      rw [if_pos hc]
      dsimp only [purgeUserRecords, cacheDeadlines, utcDeadlines]
      rw [map_proj_alRemove, map_proj_alRemove]
      unfold cacheDeadlines utcDeadlines at h
      rw [h]
    · simp only [removeOldRecords, huc]
      rw [if_neg hc]
      exact h

theorem lockstep_addToCache (ttl : Nat) (u a : String) (v : Nat) (st : CState)
    (h : cacheDeadlines st = utcDeadlines st) :
    cacheDeadlines (addToCache ttl u a v st) = utcDeadlines (addToCache ttl u a v st) := by
  dsimp only [addToCache, cacheDeadlines, utcDeadlines, alInsert]
  simp only [List.map_cons]
  rw [map_proj_alRemove, map_proj_alRemove]
  unfold cacheDeadlines utcDeadlines at h
  rw [h]

/-! ### Claim C8: primary cache and expiry index in lockstep -/

/-- Claim C8: in every state reachable through the cache's operations (a
fresh collection, `Schemas` calls with hits, misses, stale purges and failed
computations, and the passage of time), the primary schema cache and the
expiry index hold exactly the same keys with exactly the same expiry
deadlines, so a decision identity has a record in the primary cache
precisely while a live entry with a matching key sits in the expiry index. -/
theorem c8_lockstep (ttl : Nat) (st : CState) (h : Reach ttl st) :
    cacheDeadlines st = utcDeadlines st := by
  induction h with
  | start => rfl
  | step compute userName accessID st0 h0 ih =>
    simp only [Schemas]
    cases hget : cacheGet (removeOldRecords userName accessID st0) accessID with
    | some v => exact lockstep_removeOldRecords userName accessID st0 ih
    | none =>
      cases hcomp : compute accessID with
      | error e => exact lockstep_removeOldRecords userName accessID st0 ih
      | ok schemas =>
        exact lockstep_addToCache ttl userName accessID schemas _
          (lockstep_removeOldRecords userName accessID st0 ih)
  | tick st0 d h0 ih => simpa [cacheDeadlines, utcDeadlines] using ih

/-- Claim C8 witness: the lockstep equality holds in the state reached by
one populating `Schemas` call from the empty collection. -/
theorem c8_witness : cacheDeadlines c8WitnessState = utcDeadlines c8WitnessState :=
  c8_lockstep 2160 c8WitnessState
    (Reach.step (fun _ => Except.ok 5) "P" "D" initialState Reach.start)

/-! ### Claim C1: one record per principal -/

/-- Claim C1 counterexample: principal `P` is cached under `D1`, principal
`Q` under `D2`; when `P` comes back with decision identity `D2`, the call is
served from `Q`'s record and `addToCache` never runs, so `P` has NO
principal-index entry afterwards — not exactly one pointing to `D2` as the
claim states for the case where another principal already holds a record
under `D2`. -/
theorem c1_counterexample :
    userCacheGet c1State "P" = some "D1" ∧
    (Schemas 2160 (fun _ => Except.ok 3) "P" "D2" c1State).1 = Except.ok 2 ∧
    alLookup ((Schemas 2160 (fun _ => Except.ok 3) "P" "D2" c1State).2).userCache "P" =
      none := by
  exact ⟨rfl, rfl, rfl⟩

/-- Claim C1 (amended): after principal `P` cached under `D1` returns with
decision identity `D2`, a `Schemas(P)` call leaves no cache record and no
expiry-index record under `D1`, and `P` has at most one principal-index
entry: none when the call was served from a record already cached under `D2`
(for example by another principal), and exactly one pointing to `D2` when
the call computed and cached a new catalog. -/
theorem c1_one_record_per_principal (ttl : Nat) (compute : String → Except String Nat)
    (P D1 D2 : String) (st : CState) (cat : Nat)
    (h1 : userCacheGet st P = some D1) (h2 : D1 ≠ D2)
    (h3 : compute D2 = Except.ok cat) :
    countKey ((Schemas ttl compute P D2 st).2).cache D1 = 0 ∧
    countKey ((Schemas ttl compute P D2 st).2).userTimeoutCache D1 = 0 ∧
    ((cacheGet st D2).isSome = true →
      countKey ((Schemas ttl compute P D2 st).2).userCache P = 0) ∧
    ((cacheGet st D2).isSome = false →
      countKey ((Schemas ttl compute P D2 st).2).userCache P = 1 ∧
      (alLookup ((Schemas ttl compute P D2 st).2).userCache P).map CacheEntry.value =
        some D2) := by
  have hst1 := removeOldRecords_purges P D1 D2 st h1 h2
  have hget := cacheGet_removeOldRecords P D1 D2 st h1 h2
  cases hc : cacheGet st D2 with
  | some v =>
    have hget2 : cacheGet (removeOldRecords P D2 st) D2 = some v := by rw [hget, hc]
    have hS : (Schemas ttl compute P D2 st).2 = removeOldRecords P D2 st := by
      simp only [Schemas, hget2]
    rw [hS, hst1]
    refine ⟨countKey_alRemove_self _ _, countKey_alRemove_self _ _, ?_, ?_⟩
    · intro _
      exact countKey_alRemove_self _ _
    · intro hfalse
      simp at hfalse
  | none =>
    have hget2 : cacheGet (removeOldRecords P D2 st) D2 = none := by rw [hget, hc]
    have hS : (Schemas ttl compute P D2 st).2 =
        addToCache ttl P D2 cat (removeOldRecords P D2 st) := by
      simp only [Schemas, hget2, h3]
    rw [hS, hst1]
    dsimp only [addToCache]
    refine ⟨?_, ?_, ?_, ?_⟩
    · rw [countKey_alInsert_other _ _ _ _ h2]
      exact countKey_alRemove_self _ _
    · rw [countKey_alInsert_other _ _ _ _ h2]
      exact countKey_alRemove_self _ _
    · intro htrue
      simp at htrue
    · intro _
      refine ⟨countKey_alInsert_self _ _ _, ?_⟩
      rw [alLookup_alInsert]
      simp

/-- Claim C1 witness: the miss path at a concrete state — `P` cached under
`D1`, nothing cached under `D2` — leaves no `D1` record and exactly one
principal-index entry for `P`, pointing to `D2`. -/
theorem c1_witness :
    userCacheGet c1MissState "P" = some "D1" ∧
    countKey ((Schemas 2160 (fun _ => Except.ok 3) "P" "D2" c1MissState).2).cache "D1" = 0 ∧
    countKey ((Schemas 2160 (fun _ => Except.ok 3) "P" "D2" c1MissState).2).userCache "P" = 1 ∧
    (alLookup ((Schemas 2160 (fun _ => Except.ok 3) "P" "D2" c1MissState).2).userCache
        "P").map CacheEntry.value = some "D2" :=
  ⟨rfl,
   (c1_one_record_per_principal 2160 (fun _ => Except.ok 3) "P" "D1" "D2" c1MissState 3
     rfl (by decide) rfl).1,
   ((c1_one_record_per_principal 2160 (fun _ => Except.ok 3) "P" "D1" "D2" c1MissState 3
     rfl (by decide) rfl).2.2.2 rfl).1,
   ((c1_one_record_per_principal 2160 (fun _ => Except.ok 3) "P" "D1" "D2" c1MissState 3
     rfl (by decide) rfl).2.2.2 rfl).2⟩

/-! ### Claim C10: a failed computation is propagated and never cached -/

/-- Claim C10: when the catalog computation fails on a miss, `Schemas`
returns exactly that error and adds nothing to any of the three cache
indexes: each index afterwards is a sublist of what it was before the call
(the stale-purge step only removes). -/
theorem c10_error_not_cached (ttl : Nat) (compute : String → Except String Nat)
    (u a e : String) (st : CState)
    (hmiss : cacheGet (removeOldRecords u a st) a = none)
    (herr : compute a = Except.error e) :
    (Schemas ttl compute u a st).1 = Except.error e ∧
    List.Sublist ((Schemas ttl compute u a st).2).cache st.cache ∧
    List.Sublist ((Schemas ttl compute u a st).2).userCache st.userCache ∧
    List.Sublist ((Schemas ttl compute u a st).2).userTimeoutCache st.userTimeoutCache := by
  have hS : Schemas ttl compute u a st = (Except.error e, removeOldRecords u a st) := by
    simp only [Schemas, hmiss, herr]
  rw [hS]
  exact ⟨rfl, (removeOldRecords_sublists u a st).1, (removeOldRecords_sublists u a st).2.1,
    (removeOldRecords_sublists u a st).2.2⟩

/-- Claim C10 witness: a failing computation on the empty collection
propagates its error and caches nothing. -/
theorem c10_witness :
    (Schemas 2160 (fun _ => Except.error "boom") "P" "D" initialState).1 =
      Except.error "boom" ∧
    List.Sublist ((Schemas 2160 (fun _ => Except.error "boom") "P" "D" initialState).2).cache
      initialState.cache :=
  ⟨(c10_error_not_cached 2160 (fun _ => Except.error "boom") "P" "D" "boom" initialState
      rfl rfl).1,
   (c10_error_not_cached 2160 (fun _ => Except.error "boom") "P" "D" "boom" initialState
      rfl rfl).2.1⟩

end Steve
